import Mathlib

/-!
Verification development for the dotnet-deobfuscation pipeline plugin.

The embedding below translates the orchestration and failure-classification
core of the repository:

* `deob/deobfuscators.py`: the failure enumeration `DeobFailTypes`, the
  `ExceptionMapping` records, the three concrete deobfuscator adapters with
  their keys, display names and pattern tables, the invocation construction
  performed by each `deobfuscate` method (command list, optional stdin text,
  expected output location), and the process-running method `_deobfuscate`.
* `main.py` (`AzulPluginDotnetDeob.execute`): the sequential pipeline loop
  over `AVAILABLE_DEOBFUSCATORS` filtered by the configured key list, the
  threading of `newest_file_path`, the `successful_deobs` / `failed_deobs`
  accumulators, the aggregate error-type scan over the failure messages, and
  the mapping of the aggregate result to the plugin outcome.

External effects (the spawned process, the filesystem) are captured by an
explicit environment record `ProcEnv` describing, for one invocation, how the
launched process behaves and what the filesystem reports afterwards.

The four regular expressions appearing in the source are regex-escaped
literals, so Python `re.search` on them is exactly "the unescaped literal
occurs as a contiguous substring".  Patterns are therefore modelled as a
literal string together with a start-anchor flag (`RegexPat`): every pattern
of the source is unanchored; the anchored form is used to reason about
patterns that could only match at the start of a text.
-/

/-- Whether the character list `pat` occurs as a contiguous sublist of `l`
(the semantics of an unanchored search for a literal pattern). -/
def containsSub (pat : List Char) : List Char → Bool
  | [] => pat.isEmpty
  | c :: rest => pat.isPrefixOf (c :: rest) || containsSub pat rest

/-- A pattern as used by the source: a literal text, possibly anchored at the
start.  All four patterns in `deobfuscators.py` are unanchored literals (their
regexes escape every metacharacter). -/
structure RegexPat where
  anchored : Bool
  lit : String
deriving DecidableEq, Repr

/-- Embeds `re.search(pattern, msg) is not None` for the literal patterns of
the source: an unanchored pattern matches anywhere in the text, an anchored
one only at the start. -/
def regexSearch (p : RegexPat) (s : String) : Bool :=
  if p.anchored then p.lit.toList.isPrefixOf s.toList else containsSub p.lit.toList s.toList

/-- Embeds `DeobFailTypes` from `deob/deobfuscators.py`. -/
inductive DeobFailTypes where
  | NotValidDotnetFile
  | DotnetFileContentLengthMismatch
deriving DecidableEq, Repr

/-- Embeds the dataclass `ExceptionMapping` from `deob/deobfuscators.py`. -/
structure ExceptionMapping where
  regex_pattern : RegexPat
  fail_type : DeobFailTypes
deriving DecidableEq, Repr

/-- The three concrete `Deobfuscator` subclasses of `deob/deobfuscators.py`.
Each is stateless registry data, so the class hierarchy is embedded as an
enumeration with one accessor per class attribute. -/
inductive Deobfuscator where
  | UnscramblerDeobfuscator
  | ConfuserExStaticStringDecryptorDeobfuscator
  | De4dotCexDeobfuscator
deriving DecidableEq, Repr

/-- The `key` class attribute of each deobfuscator. -/
def Deobfuscator.key : Deobfuscator → String
  | .UnscramblerDeobfuscator => "unscrambler"
  | .ConfuserExStaticStringDecryptorDeobfuscator => "ConfuserExSSD"
  | .De4dotCexDeobfuscator => "de4dotcex"

/-- The `display_name` class attribute of each deobfuscator. -/
def Deobfuscator.display_name : Deobfuscator → String
  | .UnscramblerDeobfuscator => "unscrambler"
  | .ConfuserExStaticStringDecryptorDeobfuscator => "ConfuserEx-Static-String-Decryptor"
  | .De4dotCexDeobfuscator => "de4dot-cex"

/-- The `rel_path_to_exe` class attribute of each deobfuscator. -/
def Deobfuscator.rel_path_to_exe : Deobfuscator → String
  | .UnscramblerDeobfuscator => "dotnet/Unscrambler/Unscrambler.dll"
  | .ConfuserExStaticStringDecryptorDeobfuscator =>
      "mono/ConfuserEx_Static_String_decryptor/ConfuserEx String Decryptor.exe"
  | .De4dotCexDeobfuscator => "mono/de4dot-cex/de4dot-x64.exe"

/-- The `regex_exception_mappings` class attribute of each deobfuscator, with
each regex unescaped to the literal it stands for. -/
def Deobfuscator.regex_exception_mappings : Deobfuscator → List ExceptionMapping
  | .UnscramblerDeobfuscator =>
      [⟨⟨false, "PE image does not contain a .NET metadata directory"⟩,
        .NotValidDotnetFile⟩,
       ⟨⟨false, "Specified argument was out of the range of valid values. (Parameter \x27fileOffset\x27)"⟩,
        .DotnetFileContentLengthMismatch⟩]
  | .ConfuserExStaticStringDecryptorDeobfuscator =>
      [⟨⟨false, "Format of the executable (.exe) or library (.dll) is invalid."⟩,
        .NotValidDotnetFile⟩,
       ⟨⟨false, "There\x27s not enough bytes left to read"⟩,
        .DotnetFileContentLengthMismatch⟩]
  | .De4dotCexDeobfuscator =>
      [⟨⟨false, "Format of the executable (.exe) or library (.dll) is invalid."⟩,
        .NotValidDotnetFile⟩]

/-- Embeds `AVAILABLE_DEOBFUSCATORS` from `deob/deobfuscators.py`, in its
registration order. -/
def AVAILABLE_DEOBFUSCATORS : List Deobfuscator :=
  [.UnscramblerDeobfuscator,
   .ConfuserExStaticStringDecryptorDeobfuscator,
   .De4dotCexDeobfuscator]

/-- Embeds `Deobfuscator._get_path_to_cmd`: `deobDir` stands for
`os.path.dirname(os.path.realpath(__file__))`. -/
def Deobfuscator.get_path_to_cmd (deobDir : String) (d : Deobfuscator) : String :=
  deobDir ++ "/bin/" ++ d.rel_path_to_exe

/-- Index (from the end) of the last occurrence of `c` in `l`, embedding
Python `str.rfind`: `-1` when `c` does not occur. -/
def rfindIdx (l : List Char) (c : Char) : Int :=
  match l.reverse.findIdx? (fun x => x = c) with
  | none => -1
  | some i => (l.length : Int) - 1 - (i : Int)

/-- Embeds CPython `posixpath.splitext` as used by the Unscrambler adapter:
split at the last dot after the last slash, except that a basename consisting
only of leading dots up to that dot has no extension. -/
def splitext (p : String) : String × String :=
  let l := p.toList
  let sepIndex := rfindIdx l '/'
  let dotIndex := rfindIdx l '.'
  if sepIndex < dotIndex then
    let filenameIndex := (sepIndex + 1).toNat
    let mid := (l.drop filenameIndex).take (dotIndex.toNat - filenameIndex)
    if mid.any (fun ch => ch ≠ '.') then
      (⟨l.take dotIndex.toNat⟩, ⟨l.drop dotIndex.toNat⟩)
    else (p, "")
  else (p, "")

/-- The argument triple each `deobfuscate` method passes to `_deobfuscate`:
command list, optional stdin text, expected output location. -/
structure Invocation where
  commandList : List String
  stdin : Option String
  expected_out_file_loc : String
deriving DecidableEq, Repr

/-- The invocation each adapter's `deobfuscate` method constructs from the
input file path (`deob/deobfuscators.py`, the three `deobfuscate` methods). -/
def Deobfuscator.deob_invocation (deobDir : String) (d : Deobfuscator)
    (in_file_path : String) : Invocation :=
  match d with
  | .UnscramblerDeobfuscator =>
      let pre := (splitext in_file_path).1
      let post := (splitext in_file_path).2
      ⟨["dotnet", d.get_path_to_cmd deobDir, in_file_path], some "\n",
        pre ++ "_unscrambled" ++ post⟩
  | .ConfuserExStaticStringDecryptorDeobfuscator =>
      ⟨["mono", d.get_path_to_cmd deobDir], some in_file_path,
        in_file_path ++ "Cleaned.exe"⟩
  | .De4dotCexDeobfuscator =>
      ⟨["mono", d.get_path_to_cmd deobDir, "-f", in_file_path, "-o",
          in_file_path ++ "deob-cex"], none,
        in_file_path ++ "deob-cex"⟩

/-- The timeout `_deobfuscate` passes to `subprocess.run`, in seconds. -/
def TIMEOUT_SECONDS : Nat := 60

/-- The behaviour of the external world during one `_deobfuscate` call:
whether the process can be launched at all (`OSError` otherwise), how many
seconds it runs when launched (`none`: it never exits), its exit code and
captured output streams, whether the expected output file exists on disk
afterwards, and whether `os.listdir` applied to the basename of the expected
output location succeeds (it raises `OSError` unless the working directory
happens to contain a directory of that name). -/
structure ProcEnv where
  launchOk : Bool
  runtime : Option Nat
  returncode : Int
  stdoutText : String
  stderrText : String
  outExists : Bool
  listdirOk : Bool
deriving DecidableEq, Repr

/-- The one uncaught exception the embedded code can raise: the statement
`+f"..."` in `_deobfuscate` applies unary `+` to a `str`, a `TypeError`,
which neither `except OSError` nor `except subprocess.TimeoutExpired`
catches. -/
inductive PyExn where
  | typeError
deriving DecidableEq, Repr

/-- Embeds `Deobfuscator._deobfuscate` from `deob/deobfuscators.py`.  Branches,
in source order: `subprocess.run` raises `OSError` when the launch fails and
`TimeoutExpired` when the process outlives the 60-second timeout; a nonzero
exit returns the stderr/stdout message; a zero exit with the expected output
present returns success; otherwise the source assigns `err_msg` and then
evaluates the stray statement `+f" directory are {os.listdir(...)}."` — the
`os.listdir` call raises `OSError` (caught, yielding the generic OSError
message) unless it succeeds, in which case the unary `+` on the formatted
string raises an uncaught `TypeError`, so the `return None, err_msg` line is
never reached. -/
def deobfuscateRun (e : ProcEnv) (expected_out_file_loc : String) :
    Except PyExn (Option String × Option String) :=
  if e.launchOk = false then
    .ok (none, some "OSError occured while deobfuscating.")
  else
    match e.runtime with
    | none => .ok (none, some "Timed out while deobfuscating.")
    | some t =>
      if TIMEOUT_SECONDS < t then
        .ok (none, some "Timed out while deobfuscating.")
      else if e.returncode ≠ 0 then
        .ok (none, some ("An unexpected error occurred when deobfuscating. stderr "
          ++ e.stderrText ++ " stdout: " ++ e.stdoutText ++ "."))
      else if e.outExists then
        .ok (some expected_out_file_loc, none)
      else if e.listdirOk then
        .error .typeError
      else
        .ok (none, some "OSError occured while deobfuscating.")

/-- One adapter call as the pipeline performs it: build the invocation from
the input path, then run `_deobfuscate` under environment `e`. -/
def Deobfuscator.deobfuscate (deobDir : String) (e : ProcEnv) (d : Deobfuscator)
    (in_file_path : String) : Except PyExn (Option String × Option String) :=
  deobfuscateRun e (d.deob_invocation deobDir in_file_path).expected_out_file_loc

/-- The failure message `execute` records for a failed adapter (`main.py`):
the adapter's display name composed around the raw error text. -/
def failMsg (d : Deobfuscator) (error : String) : String :=
  "Deobfuscator " ++ d.display_name ++ " failed with error: " ++ error

/-- The loop state of `AzulPluginDotnetDeob.execute` (`main.py`):
`newest_file_path` is the current candidate, `successful_deobs` the display
names of the adapters that succeeded, `failed_deobs` the (adapter, composed
failure message) pairs, all in execution order. -/
structure PipeState where
  newest_file_path : String
  successful_deobs : List String
  failed_deobs : List (Deobfuscator × String)
deriving DecidableEq, Repr

/-- Embeds the `for deob in deobs.AVAILABLE_DEOBFUSCATORS` loop of
`execute` (`main.py`), run over an arbitrary remaining adapter list: an
adapter whose key is not in the configured list is skipped; otherwise its
result either advances the candidate and records the display name, or leaves
the candidate alone and records the composed failure message.  The
`(none, none)` result never arises from `_deobfuscate`, but on it the source
would apply `+` to `None` inside an f-string, an uncaught `TypeError`. -/
def execLoop (deobDir : String) (cfg : List String) (env : Deobfuscator → String → ProcEnv) :
    List Deobfuscator → PipeState → Except PyExn PipeState
  | [], st => .ok st
  | d :: rest, st =>
    if cfg.contains d.key then
      match d.deobfuscate deobDir (env d st.newest_file_path) st.newest_file_path with
      | .error exn => .error exn
      | .ok (some result_file_path, _) =>
          execLoop deobDir cfg env rest
            ⟨result_file_path, st.successful_deobs ++ [d.display_name], st.failed_deobs⟩
      | .ok (none, some error) =>
          execLoop deobDir cfg env rest
            ⟨st.newest_file_path, st.successful_deobs,
              st.failed_deobs ++ [(d, failMsg d error)]⟩
      | .ok (none, none) => .error .typeError
    else
      execLoop deobDir cfg env rest st

/-- The inner pattern loop of the aggregate scan in `execute` (`main.py`,
`for mapping in deob.regex_exception_mappings`): the first mapping whose
pattern matches the message determines the type, then `break`. -/
def firstMatchType : List ExceptionMapping → String → Option DeobFailTypes
  | [], _ => none
  | m :: rest, msg =>
    if regexSearch m.regex_pattern msg then some m.fail_type
    else firstMatchType rest msg

/-- The outer aggregate scan of `execute` (`main.py`, `for deob, msg in
failed_deobs`): each failed adapter whose own patterns match the recorded
message overwrites the running `error_type`; the inner `break` leaves the
outer loop running. -/
def aggregateErrorType (failed_deobs : List (Deobfuscator × String)) : Option DeobFailTypes :=
  failed_deobs.foldl
    (fun error_type dm =>
      match firstMatchType dm.1.regex_exception_mappings dm.2 with
      | some t => some t
      | none => error_type)
    none

/-- The observable outcome of the pipeline part of `execute` (`main.py`):
a deobfuscated child with the final path and the comma-joined success names,
or one of the three no-success outcomes (OPT_OUT for `NotValidDotnetFile`,
the malformed flag for `DotnetFileContentLengthMismatch`, COMPLETED_EMPTY
otherwise). -/
inductive PipelineOutcome where
  | deobfuscated (path : String) (deobfuscated_by : List String)
  | optOutNotDotnet
  | malformedTruncated
  | completedEmpty
deriving DecidableEq, Repr

/-- Embeds the pipeline section of `AzulPluginDotnetDeob.execute` (`main.py`,
after the PE precheck): run the adapter loop from the scratch copy, then
either emit the deobfuscated child or classify the recorded failures. -/
def execute (deobDir : String) (cfg : List String) (env : Deobfuscator → String → ProcEnv)
    (src_file_path : String) : Except PyExn PipelineOutcome :=
  match execLoop deobDir cfg env AVAILABLE_DEOBFUSCATORS ⟨src_file_path, [], []⟩ with
  | .error exn => .error exn
  | .ok st =>
    if 0 < st.successful_deobs.length then
      .ok (.deobfuscated st.newest_file_path st.successful_deobs)
    else
      match aggregateErrorType st.failed_deobs with
      | some .NotValidDotnetFile => .ok .optOutNotDotnet
      | some .DotnetFileContentLengthMismatch => .ok .malformedTruncated
      | none => .ok .completedEmpty

/-- The text `_deobfuscate` assigns to `err_msg` when a clean exit produced no
output file (`deob/deobfuscators.py`).  The next source line is the stray
statement `+f" directory are ..."`, which always raises before the
`return None, err_msg` line, so this message is never returned. -/
def missingOutputMsg (expected_out_file_loc : String) : String :=
  "Failed to produce the expected output file " ++ expected_out_file_loc
    ++ " contents of the out"


/-- Modelled from the spec (for comparison with the code only): an output
file name "derived by appending a fixed suffix before the original extension"
of the input path. -/
def specSuffixBeforeExt (suffix p : String) : String :=
  (splitext p).1 ++ suffix ++ (splitext p).2

/-- Modelled from the spec (for comparison with the code only): "adapters
present are run in the list's order" — the adapters the configuration
selects, in the order their keys appear in the configuration list. -/
def specConfiguredOrder (cfg : List String) : List Deobfuscator :=
  cfg.filterMap (fun k => AVAILABLE_DEOBFUSCATORS.find? (fun d => d.key == k))

/-- The output path of the last entry of a success trace (each entry is an
adapter together with its input and output paths), or the starting path when
the trace is empty. -/
def lastOutput (p : String) : List (Deobfuscator × String × String) → String
  | [] => p
  | e :: rest => lastOutput e.2.2 rest

/-- A chain of successful adapter invocations threading the candidate path:
each entry's input is the current candidate (the starting path for the first
entry, the previous entry's output afterwards) and its `deobfuscate` call
returned that entry's output path. -/
def successChain (deobDir : String) (env : Deobfuscator → String → ProcEnv) :
    String → List (Deobfuscator × String × String) → Prop
  | _, [] => True
  | p, (d, inp, out) :: rest =>
      inp = p ∧
      (∃ y, d.deobfuscate deobDir (env d inp) inp = .ok (some out, y)) ∧
      successChain deobDir env out rest

/-- A concrete environment for instances: Unscrambler fails to launch, the
other two adapters run for one second, exit 0 and produce their expected
output. -/
def chainEnvW : Deobfuscator → String → ProcEnv := fun d _ =>
  match d with
  | .UnscramblerDeobfuscator => ⟨false, none, 0, "", "", false, false⟩
  | _ => ⟨true, some 1, 0, "", "", true, false⟩

/-! ## General lemmas about the embedding -/

theorem string_toList_append (a b : String) :
    (a ++ b).toList = a.toList ++ b.toList := rfl

theorem containsSub_iff (pat l : List Char) :
    containsSub pat l = true ↔ pat <:+: l := by
  induction l with
  | nil =>
      simp [containsSub, List.isEmpty_iff]
  | cons c rest ih =>
      simp [containsSub, List.isPrefixOf_iff_prefix, ih, List.infix_cons_iff]

theorem head_of_append_lit (lit rest : String) (c : Char)
    (h : lit.toList.head? = some c) : (lit ++ rest).toList.head? = some c := by
  rw [string_toList_append, List.head?_append, h]
  rfl

theorem str_ne_of_head (a b : String) (ca cb : Char)
    (ha : a.toList.head? = some ca) (hb : b.toList.head? = some cb)
    (hne : ca ≠ cb) : a ≠ b := by
  intro h
  rw [h, hb] at ha
  exact hne (Option.some_injective _ ha.symm)

theorem missingOutputMsg_head (exp : String) :
    (missingOutputMsg exp).toList.head? = some 'F' := by
  unfold missingOutputMsg
  exact head_of_append_lit _ _ _ (head_of_append_lit _ _ _ (by decide))

/-- No `.ok` result of the process runner carries the missing-output text:
the assignment to `err_msg` is followed by a statement that always raises. -/
theorem deobfuscateRun_never_missingMsg (e : ProcEnv) (exp : String)
    (r : Option String × Option String) (h : deobfuscateRun e exp = .ok r) :
    r.2 ≠ some (missingOutputMsg exp) := by
  intro hr
  unfold deobfuscateRun at h
  split at h
  · cases h
    exact str_ne_of_head _ _ 'O' 'F' (by decide) (missingOutputMsg_head exp)
      (by decide) (Option.some_injective _ hr)
  · split at h
    · cases h
      exact str_ne_of_head _ _ 'T' 'F' (by decide) (missingOutputMsg_head exp)
        (by decide) (Option.some_injective _ hr)
    · split at h
      · cases h
        exact str_ne_of_head _ _ 'T' 'F' (by decide) (missingOutputMsg_head exp)
          (by decide) (Option.some_injective _ hr)
      · split at h
        · cases h
          refine str_ne_of_head _ _ 'A' 'F' ?_ (missingOutputMsg_head exp)
            (by decide) (Option.some_injective _ hr)
          exact head_of_append_lit _ _ _ (head_of_append_lit _ _ _
            (head_of_append_lit _ _ _ (head_of_append_lit _ _ _ (by decide))))
        · split at h
          · cases h
            simp at hr
          · split at h
            · cases h
            · cases h
              exact str_ne_of_head _ _ 'O' 'F' (by decide) (missingOutputMsg_head exp)
                (by decide) (Option.some_injective _ hr)

/-! ## Claim theorems -/

/-- C6: with an empty configured key list the pipeline invokes no adapter
(the loop returns its initial state unchanged, so the failed-tool list is
empty) and `execute` always returns the generic COMPLETED_EMPTY outcome,
which is neither the not-a-dotnet-file opt-out nor the truncated-content
malformed flag. -/
theorem claim_C6_empty_config_completed_empty
    (deobDir : String) (env : Deobfuscator → String → ProcEnv) (src : String) :
    execute deobDir [] env src = .ok .completedEmpty ∧
    execLoop deobDir [] env AVAILABLE_DEOBFUSCATORS ⟨src, [], []⟩ = .ok ⟨src, [], []⟩ ∧
    PipelineOutcome.completedEmpty ≠ .optOutNotDotnet ∧
    PipelineOutcome.completedEmpty ≠ .malformedTruncated := by
  refine ⟨rfl, rfl, by decide, by decide⟩

/-- C3: a process that exits 0 without creating the expected output file does
fail (never a success), but the recorded error message is the generic OSError
text, not a message stating that the expected path was not produced: the
source's `err_msg` assignment is followed by a stray `+f"..."` statement whose
`os.listdir` call raises `OSError` here, and no `.ok` result of the process
runner ever carries the missing-output message. -/
theorem claim_C3_missing_output_message_lost :
    deobfuscateRun ⟨true, some 1, 0, "", "", false, false⟩ "/scratch/sampleCleaned.exe"
      = .ok (none, some "OSError occured while deobfuscating.") ∧
    (∀ (e : ProcEnv) (exp : String) (r : Option String × Option String),
      deobfuscateRun e exp = .ok r → r.2 ≠ some (missingOutputMsg exp)) := by
  exact ⟨rfl, fun e exp r h => deobfuscateRun_never_missingMsg e exp r h⟩

/-- Closed instance of the universal part of the C3 theorem at a concrete
environment and path. -/
theorem claim_C3_missing_output_message_lost_witness :
    (some "OSError occured while deobfuscating." : Option String)
      ≠ some (missingOutputMsg "/scratch/sampleCleaned.exe") :=
  claim_C3_missing_output_message_lost.2
    ⟨true, some 1, 0, "", "", false, false⟩ "/scratch/sampleCleaned.exe"
    (none, some "OSError occured while deobfuscating.") rfl

/-- C9: every `.ok` result of the process runner has exactly one populated
side — `(some path, none)` or `(none, some message)` — but when the process
exits 0 with no expected output and `os.listdir` on the output basename
succeeds, the stray unary `+` on a string raises a `TypeError` that escapes
the runner instead of being recovered into an `AdapterResult`. -/
theorem claim_C9_typeerror_escapes_runner :
    deobfuscateRun ⟨true, some 1, 0, "", "", false, true⟩ "/scratch/sampleCleaned.exe"
      = .error .typeError ∧
    (∀ (e : ProcEnv) (exp : String) (r : Option String × Option String),
      deobfuscateRun e exp = .ok r →
        (∃ p, r = (some p, none)) ∨ (∃ msg, r = (none, some msg))) := by
  refine ⟨rfl, fun e exp r h => ?_⟩
  unfold deobfuscateRun at h
  split at h
  · cases h
    exact .inr ⟨_, rfl⟩
  · split at h
    · cases h
      exact .inr ⟨_, rfl⟩
    · split at h
      · cases h
        exact .inr ⟨_, rfl⟩
      · split at h
        · cases h
          exact .inr ⟨_, rfl⟩
        · split at h
          · cases h
            exact .inl ⟨_, rfl⟩
          · split at h
            · cases h
            · cases h
              exact .inr ⟨_, rfl⟩

/-- Closed instance of the universal part of the C9 theorem at a concrete
environment and path. -/
theorem claim_C9_typeerror_escapes_runner_witness :
    (∃ p, ((some "/scratch/out.exe" : Option String), (none : Option String)) = (some p, none)) ∨
    (∃ msg, ((some "/scratch/out.exe" : Option String), (none : Option String)) = (none, some msg)) :=
  claim_C9_typeerror_escapes_runner.2
    ⟨true, some 1, 0, "", "", true, false⟩ "/scratch/out.exe"
    (some "/scratch/out.exe", none) rfl

theorem getLast_of_append_lit (rest lit : String) (c : Char)
    (h : lit.toList.getLast? = some c) : (rest ++ lit).toList.getLast? = some c := by
  rw [string_toList_append, List.getLast?_append, h]
  rfl

/-- C7 counterexample: the stdin-path adapter (ConfuserEx-Static-String-
Decryptor) does not derive its expected output name by inserting a fixed
suffix before the input's extension: on the input `a.dll` the code expects
`a.dllCleaned.exe`, while every before-the-extension name for `a.dll` ends in
`.dll`. -/
theorem claim_C7_before_extension_refuted :
    (∃ suffix : String, ∀ in_file_path : String,
      (Deobfuscator.ConfuserExStaticStringDecryptorDeobfuscator.deob_invocation
          "/deob" in_file_path).expected_out_file_loc
        = specSuffixBeforeExt suffix in_file_path) = False := by
  simp only [eq_iff_iff, iff_false]
  rintro ⟨S, h⟩
  have h1 := h "a.dll"
  have hexp : (Deobfuscator.ConfuserExStaticStringDecryptorDeobfuscator.deob_invocation
      "/deob" "a.dll").expected_out_file_loc = "a.dllCleaned.exe" := by decide
  have hspec : specSuffixBeforeExt S "a.dll" = ("a" ++ S) ++ ".dll" := by
    unfold specSuffixBeforeExt
    rw [show splitext "a.dll" = ("a", ".dll") from by decide]
  rw [hexp, hspec] at h1
  have hL : ("a.dllCleaned.exe" : String).toList.getLast? = some 'e' := by decide
  have hR : (("a" ++ S) ++ ".dll").toList.getLast? = some 'l' :=
    getLast_of_append_lit _ _ 'l' (by decide)
  rw [h1] at hL
  exact absurd (hL.symm.trans hR) (by decide)

/-- C7 as amended: the adapter that passes the input file path as its stdin
text, with a command line holding no file argument (only the interpreter and
the tool executable), expects its output at the full input path with the
fixed suffix `Cleaned.exe` appended after it (after the extension, not
before it). -/
theorem claim_C7_confuserex_appends_suffix_after_name
    (deobDir in_file_path : String) :
    (Deobfuscator.ConfuserExStaticStringDecryptorDeobfuscator.deob_invocation
        deobDir in_file_path).stdin = some in_file_path ∧
    (Deobfuscator.ConfuserExStaticStringDecryptorDeobfuscator.deob_invocation
        deobDir in_file_path).commandList
      = ["mono",
         Deobfuscator.ConfuserExStaticStringDecryptorDeobfuscator.get_path_to_cmd deobDir] ∧
    (Deobfuscator.ConfuserExStaticStringDecryptorDeobfuscator.deob_invocation
        deobDir in_file_path).expected_out_file_loc
      = in_file_path ++ "Cleaned.exe" := by
  exact ⟨rfl, rfl, rfl⟩

/-- C8: the timeout is the fixed 60 seconds for every adapter; an invocation
whose process does not exit within it returns the failing pair
`(None, "Timed out while deobfuscating.")` whatever the expected output
location is, and the pipeline loop records that composed failure and carries
on with the remaining adapters from an unchanged candidate path. -/
theorem claim_C8_timeout_recovered_and_pipeline_continues
    (deobDir : String) (cfg : List String) (env : Deobfuscator → String → ProcEnv)
    (d : Deobfuscator) (rest : List Deobfuscator) (st : PipeState)
    (hlaunch : (env d st.newest_file_path).launchOk = true)
    (htime : (env d st.newest_file_path).runtime = none ∨
      ∃ t, (env d st.newest_file_path).runtime = some t ∧ TIMEOUT_SECONDS < t)
    (hkey : cfg.contains d.key = true) :
    TIMEOUT_SECONDS = 60 ∧
    (∀ exp, deobfuscateRun (env d st.newest_file_path) exp
      = .ok (none, some "Timed out while deobfuscating.")) ∧
    execLoop deobDir cfg env (d :: rest) st =
      execLoop deobDir cfg env rest
        ⟨st.newest_file_path, st.successful_deobs,
          st.failed_deobs ++ [(d, failMsg d "Timed out while deobfuscating.")]⟩ := by
  have hrun : ∀ exp, deobfuscateRun (env d st.newest_file_path) exp
      = .ok (none, some "Timed out while deobfuscating.") := by
    intro exp
    rcases htime with hnone | ⟨t, ht, h60⟩
    · simp [deobfuscateRun, hlaunch, hnone]
    · simp [deobfuscateRun, hlaunch, ht, h60]
  refine ⟨rfl, hrun, ?_⟩
  simp only [execLoop, hkey, if_true, Deobfuscator.deobfuscate, hrun]

/-- Closed instance of the C8 theorem: a never-exiting Unscrambler process
under a one-adapter configuration. -/
theorem claim_C8_timeout_witness :
    TIMEOUT_SECONDS = 60 ∧
    (∀ exp, deobfuscateRun ⟨true, none, 0, "", "", false, false⟩ exp
      = .ok (none, some "Timed out while deobfuscating.")) ∧
    execLoop "/deob" ["unscrambler"] (fun _ _ => ⟨true, none, 0, "", "", false, false⟩)
        (Deobfuscator.UnscramblerDeobfuscator :: []) ⟨"/scratch/s.exe", [], []⟩ =
      execLoop "/deob" ["unscrambler"] (fun _ _ => ⟨true, none, 0, "", "", false, false⟩)
        []
        ⟨"/scratch/s.exe", [],
          [] ++ [(Deobfuscator.UnscramblerDeobfuscator,
            failMsg .UnscramblerDeobfuscator "Timed out while deobfuscating.")]⟩ :=
  claim_C8_timeout_recovered_and_pipeline_continues
    "/deob" ["unscrambler"] (fun _ _ => ⟨true, none, 0, "", "", false, false⟩)
    .UnscramblerDeobfuscator [] ⟨"/scratch/s.exe", [], []⟩
    rfl (Or.inl rfl) (by decide)

theorem firstMatchType_eq_some_iff (maps : List ExceptionMapping) (msg : String)
    (k : DeobFailTypes) :
    firstMatchType maps msg = some k ↔
      ∃ l₁ m l₂, maps = l₁ ++ m :: l₂ ∧ m.fail_type = k ∧
        regexSearch m.regex_pattern msg = true ∧
        ∀ m2 ∈ l₁, regexSearch m2.regex_pattern msg = false := by
  induction maps with
  | nil =>
      constructor
      · intro h
        simp [firstMatchType] at h
      · rintro ⟨l₁, m, l₂, heq, -, -, -⟩
        exact absurd heq (by simp)
  | cons m0 rest ih =>
      by_cases h0 : regexSearch m0.regex_pattern msg = true
      · simp only [firstMatchType, h0, if_true]
        constructor
        · intro h
          have hk : m0.fail_type = k := by
            simpa using h
          exact ⟨[], m0, rest, rfl, hk, h0, by simp⟩
        · rintro ⟨l₁, m, l₂, heq, hk, hm, hnone⟩
          cases l₁ with
          | nil =>
              injection heq with h1 h2
              rw [h1, hk]
          | cons a l₁t =>
              injection heq with h1 h2
              have ha := hnone a (by simp)
              rw [← h1, h0] at ha
              exact absurd ha (by decide)
      · have h0f : regexSearch m0.regex_pattern msg = false := by
          simpa using h0
        simp only [firstMatchType, h0f, Bool.false_eq_true, if_false]
        rw [ih]
        constructor
        · rintro ⟨l₁, m, l₂, heq, hk, hm, hnone⟩
          refine ⟨m0 :: l₁, m, l₂, by rw [heq]; rfl, hk, hm, ?_⟩
          intro m2 hm2
          rcases List.mem_cons.mp hm2 with rfl | h2
          · exact h0f
          · exact hnone m2 h2
        · rintro ⟨l₁, m, l₂, heq, hk, hm, hnone⟩
          cases l₁ with
          | nil =>
              injection heq with h1 h2
              rw [← h1, h0f] at hm
              exact absurd hm (by decide)
          | cons a l₁t =>
              injection heq with h1 h2
              exact ⟨l₁t, m, l₂, h2, hk, hm,
                fun m2 hm2 => hnone m2 (List.mem_cons_of_mem a hm2)⟩

theorem firstMatchType_eq_none_iff (maps : List ExceptionMapping) (msg : String) :
    firstMatchType maps msg = none ↔
      ∀ m ∈ maps, regexSearch m.regex_pattern msg = false := by
  induction maps with
  | nil => simp [firstMatchType]
  | cons m0 rest ih =>
      by_cases h0 : regexSearch m0.regex_pattern msg = true
      · constructor
        · intro h
          simp [firstMatchType, h0] at h
        · intro h
          exact absurd (h m0 (by simp)) (by simp [h0])
      · have h0f : regexSearch m0.regex_pattern msg = false := by
          simpa using h0
        simp [firstMatchType, h0f, ih, List.forall_mem_cons]

/-- C5: for every adapter and every message, the inner classification scan is
first-match-wins over pattern declaration order — it returns `some k` exactly
when the pattern table splits as non-matching patterns followed by a first
matching pattern of kind `k`, and `none` exactly when no pattern matches —
and, for the (unanchored) patterns of the source, "matches" means the
pattern's literal occurs anywhere in the message. -/
theorem claim_C5_first_match_in_declared_order (d : Deobfuscator) (msg : String) :
    (∀ k, firstMatchType d.regex_exception_mappings msg = some k ↔
      ∃ l₁ m l₂, d.regex_exception_mappings = l₁ ++ m :: l₂ ∧ m.fail_type = k ∧
        regexSearch m.regex_pattern msg = true ∧
        ∀ m2 ∈ l₁, regexSearch m2.regex_pattern msg = false) ∧
    (firstMatchType d.regex_exception_mappings msg = none ↔
      ∀ m ∈ d.regex_exception_mappings, regexSearch m.regex_pattern msg = false) ∧
    (∀ p : RegexPat, p.anchored = false →
      (regexSearch p msg = true ↔ ∃ s t, msg.toList = s ++ p.lit.toList ++ t)) := by
  refine ⟨fun k => firstMatchType_eq_some_iff _ _ k,
    firstMatchType_eq_none_iff _ _, ?_⟩
  intro p hp
  rw [show regexSearch p msg = containsSub p.lit.toList msg.toList from by
    simp [regexSearch, hp]]
  rw [containsSub_iff]
  constructor
  · rintro ⟨s, t, hst⟩
    exact ⟨s, t, hst.symm⟩
  · rintro ⟨s, t, hst⟩
    exact ⟨s, t, hst.symm⟩

/-- C10: the text the aggregate classification scans is not the raw adapter
error but the composed message `Deobfuscator <displayName> failed with
error: <rawError>` — the pipeline records exactly that composition for a
failed adapter; any unanchored pattern matching anywhere in the raw error
still matches the composed message, while a start-anchored pattern that
matches at the start of the raw error fails on the composed message. -/
theorem claim_C10_patterns_scan_composed_message :
    (∀ (deobDir : String) (cfg : List String) (env : Deobfuscator → String → ProcEnv)
        (d : Deobfuscator) (rest : List Deobfuscator) (st : PipeState) (error : String),
      cfg.contains d.key = true →
      d.deobfuscate deobDir (env d st.newest_file_path) st.newest_file_path
        = .ok (none, some error) →
      execLoop deobDir cfg env (d :: rest) st
        = execLoop deobDir cfg env rest
            ⟨st.newest_file_path, st.successful_deobs,
              st.failed_deobs ++ [(d, failMsg d error)]⟩) ∧
    (∀ (d : Deobfuscator) (raw : String) (p : RegexPat), p.anchored = false →
      regexSearch p raw = true → regexSearch p (failMsg d raw) = true) ∧
    (regexSearch ⟨true, "There\x27s not enough bytes left to read"⟩
        "There\x27s not enough bytes left to read" = true ∧
      regexSearch ⟨true, "There\x27s not enough bytes left to read"⟩
        (failMsg .ConfuserExStaticStringDecryptorDeobfuscator
          "There\x27s not enough bytes left to read") = false) := by
  refine ⟨?_, ?_, by decide, by decide⟩
  · intro deobDir cfg env d rest st error hkey hd
    simp only [execLoop, hkey, if_true, hd]
  · intro d raw p hp hm
    simp only [regexSearch, hp, Bool.false_eq_true, if_false] at hm ⊢
    rw [containsSub_iff] at hm ⊢
    have hsplit : (failMsg d raw).toList
        = ("Deobfuscator " ++ d.display_name ++ " failed with error: ").toList
            ++ raw.toList := rfl
    rw [hsplit]
    exact hm.trans (List.IsSuffix.isInfix (List.suffix_append _ _))

/-- Closed instance of the hypothesis-bearing parts of the C10 theorem: a
pattern occurring mid-way in a raw Unscrambler error still matches the
composed message. -/
theorem claim_C10_patterns_scan_composed_message_witness :
    regexSearch ⟨false, "not enough bytes"⟩
      (failMsg .UnscramblerDeobfuscator "oops: not enough bytes left") = true :=
  claim_C10_patterns_scan_composed_message.2.1
    .UnscramblerDeobfuscator "oops: not enough bytes left"
    ⟨false, "not enough bytes"⟩ rfl (by decide)

theorem option_some_or {α : Type} (a : α) (o : Option α) : (some a).or o = some a := rfl

theorem concat_decomp {α : Type} (l : List α) (x : α) (l₁ : List α) (dm : α)
    (l₂ : List α) (h : l ++ [x] = l₁ ++ dm :: l₂) :
    (l₂ = [] ∧ dm = x ∧ l = l₁) ∨ ∃ l₂h, l₂ = l₂h ++ [x] ∧ l = l₁ ++ dm :: l₂h := by
  rcases List.eq_nil_or_concat l₂ with rfl | ⟨l₂h, z, rfl⟩
  · obtain ⟨hl, hx⟩ := List.append_inj' h rfl
    injection hx with hx1 _
    exact .inl ⟨rfl, hx1.symm, hl⟩
  · rw [List.concat_eq_append] at h
    have hassoc : l₁ ++ dm :: (l₂h ++ [z]) = (l₁ ++ dm :: l₂h) ++ [z] := by simp
    rw [hassoc] at h
    obtain ⟨hl, hx⟩ := List.append_inj' h rfl
    injection hx with hx1 _
    subst hx1
    exact .inr ⟨l₂h, List.concat_eq_append _ _, hl⟩

theorem aggregateErrorType_concat (l : List (Deobfuscator × String))
    (x : Deobfuscator × String) :
    aggregateErrorType (l ++ [x]) =
      (firstMatchType x.1.regex_exception_mappings x.2).or (aggregateErrorType l) := by
  unfold aggregateErrorType
  rw [List.foldl_append, List.foldl_cons, List.foldl_nil]
  cases h : firstMatchType x.1.regex_exception_mappings x.2 <;> rfl

theorem aggregateErrorType_eq_none_iff (failed : List (Deobfuscator × String)) :
    aggregateErrorType failed = none ↔
      ∀ dm ∈ failed, firstMatchType dm.1.regex_exception_mappings dm.2 = none := by
  induction failed using List.reverseRecOn with
  | nil => simp [aggregateErrorType]
  | append_singleton l x ih =>
      rw [aggregateErrorType_concat]
      cases hx : firstMatchType x.1.regex_exception_mappings x.2 with
      | none =>
          rw [Option.none_or, ih]
          constructor
          · intro h dm hdm
            rcases List.mem_append.mp hdm with h1 | h2
            · exact h dm h1
            · rw [List.mem_singleton] at h2
              subst h2
              exact hx
          · intro h dm hdm
            exact h dm (List.mem_append_left _ hdm)
      | some t =>
          rw [option_some_or]
          constructor
          · intro h
            exact absurd h (by simp)
          · intro h
            have hxm := h x (by simp)
            rw [hx] at hxm
            exact absurd hxm (by simp)

theorem aggregateErrorType_eq_some_iff (failed : List (Deobfuscator × String))
    (k : DeobFailTypes) :
    aggregateErrorType failed = some k ↔
      ∃ l₁ dm l₂, failed = l₁ ++ dm :: l₂ ∧
        firstMatchType dm.1.regex_exception_mappings dm.2 = some k ∧
        ∀ dm2 ∈ l₂, firstMatchType dm2.1.regex_exception_mappings dm2.2 = none := by
  induction failed using List.reverseRecOn with
  | nil =>
      constructor
      · intro h
        simp [aggregateErrorType] at h
      · rintro ⟨l₁, dm, l₂, heq, -, -⟩
        exact absurd heq (by simp)
  | append_singleton l x ih =>
      rw [aggregateErrorType_concat]
      cases hx : firstMatchType x.1.regex_exception_mappings x.2 with
      | some t =>
          rw [option_some_or]
          constructor
          · intro h
            have ht : t = k := by simpa using h
            subst ht
            exact ⟨l, x, [], rfl, hx, by simp⟩
          · rintro ⟨l₁, dm, l₂, heq, hdm, hafter⟩
            rcases concat_decomp l x l₁ dm l₂ heq with ⟨-, rfl, -⟩ | ⟨l₂h, rfl, -⟩
            · rw [hdm] at hx
              rw [hx]
            · have hz := hafter x (by simp)
              rw [hz] at hx
              exact absurd hx (by simp)
      | none =>
          rw [Option.none_or, ih]
          constructor
          · rintro ⟨l₁, dm, l₂, heq, hdm, hafter⟩
            refine ⟨l₁, dm, l₂ ++ [x], by rw [heq]; simp, hdm, ?_⟩
            intro dm2 hdm2
            rcases List.mem_append.mp hdm2 with h1 | h2
            · exact hafter dm2 h1
            · rw [List.mem_singleton] at h2
              subst h2
              exact hx
          · rintro ⟨l₁, dm, l₂, heq, hdm, hafter⟩
            rcases concat_decomp l x l₁ dm l₂ heq with ⟨rfl, rfl, rfl⟩ | ⟨l₂h, rfl, rfl⟩
            · rw [hdm] at hx
              exact absurd hx (by simp)
            · exact ⟨l₁, dm, l₂h, rfl, hdm,
                fun dm2 hdm2 => hafter dm2 (List.mem_append_left _ hdm2)⟩

/-- C1: the aggregate classification over a run's failed-tool list is
last-match-wins in execution order — it yields `some k` exactly when the list
splits as anything, then a tool whose own first matching pattern has kind
`k`, then only tools none of whose patterns match; it is unclassified exactly
when no failed tool matches; and concretely, an earlier Unscrambler failure
matching the not-a-dotnet-file pattern followed by a later ConfuserEx failure
matching the truncated-content pattern classifies as truncated content. -/
theorem claim_C1_aggregate_last_match_wins (failed : List (Deobfuscator × String)) :
    (∀ k, aggregateErrorType failed = some k ↔
      ∃ l₁ dm l₂, failed = l₁ ++ dm :: l₂ ∧
        firstMatchType dm.1.regex_exception_mappings dm.2 = some k ∧
        ∀ dm2 ∈ l₂, firstMatchType dm2.1.regex_exception_mappings dm2.2 = none) ∧
    (aggregateErrorType failed = none ↔
      ∀ dm ∈ failed, firstMatchType dm.1.regex_exception_mappings dm.2 = none) ∧
    (firstMatchType Deobfuscator.UnscramblerDeobfuscator.regex_exception_mappings
        (failMsg .UnscramblerDeobfuscator
          "PE image does not contain a .NET metadata directory")
      = some .NotValidDotnetFile ∧
     firstMatchType
        Deobfuscator.ConfuserExStaticStringDecryptorDeobfuscator.regex_exception_mappings
        (failMsg .ConfuserExStaticStringDecryptorDeobfuscator
          "There\x27s not enough bytes left to read")
      = some .DotnetFileContentLengthMismatch ∧
     aggregateErrorType
        [(.UnscramblerDeobfuscator,
          failMsg .UnscramblerDeobfuscator
            "PE image does not contain a .NET metadata directory"),
         (.ConfuserExStaticStringDecryptorDeobfuscator,
          failMsg .ConfuserExStaticStringDecryptorDeobfuscator
            "There\x27s not enough bytes left to read")]
      = some .DotnetFileContentLengthMismatch) :=
  ⟨fun k => aggregateErrorType_eq_some_iff failed k,
   aggregateErrorType_eq_none_iff failed,
   by decide, by decide, by decide⟩

theorem execLoop_filter (deobDir : String) (cfg fullCfg : List String)
    (env : Deobfuscator → String → ProcEnv)
    (hfull : ∀ d : Deobfuscator, fullCfg.contains d.key = true) :
    ∀ (ds : List Deobfuscator) (st : PipeState),
      execLoop deobDir cfg env ds st
        = execLoop deobDir fullCfg env
            (ds.filter (fun d => cfg.contains d.key)) st := by
  intro ds
  induction ds with
  | nil => intro st; rfl
  | cons d rest ih =>
      intro st
      by_cases h : cfg.contains d.key = true
      · simp only [List.filter_cons, h, if_true]
        simp only [execLoop, h, hfull d, if_true]
        cases hr : d.deobfuscate deobDir (env d st.newest_file_path) st.newest_file_path with
        | error e => rfl
        | ok r =>
            rcases r with ⟨p, err⟩
            cases p with
            | some q => exact ih _
            | none =>
                cases err with
                | some e2 => exact ih _
                | none => rfl
      · simp only [List.filter_cons, h, if_false]
        simp only [execLoop, h, Bool.false_eq_true, if_false]
        exact ih st

/-- C2 counterexample: with the configuration `["de4dotcex", "unscrambler"]`
and every adapter failing, the pipeline's recorded failed-tool list shows the
adapters executed in registration order (Unscrambler before de4dot-cex), not
in the configuration list's order (de4dot-cex before Unscrambler) as the
claim states. -/
theorem claim_C2_config_order_refuted :
    (execLoop "/deob" ["de4dotcex", "unscrambler"]
        (fun _ _ => ⟨false, none, 0, "", "", false, false⟩)
        AVAILABLE_DEOBFUSCATORS ⟨"/scratch/s.exe", [], []⟩).map
      (fun st => st.failed_deobs.map Prod.fst)
      = .ok [.UnscramblerDeobfuscator, .De4dotCexDeobfuscator] ∧
    specConfiguredOrder ["de4dotcex", "unscrambler"]
      = [.De4dotCexDeobfuscator, .UnscramblerDeobfuscator] ∧
    ([Deobfuscator.UnscramblerDeobfuscator, Deobfuscator.De4dotCexDeobfuscator]
        = [Deobfuscator.De4dotCexDeobfuscator, Deobfuscator.UnscramblerDeobfuscator])
      = False := by
  refine ⟨rfl, rfl, ?_⟩
  simp only [eq_iff_iff, iff_false]
  intro h
  exact absurd h (by decide)

/-- C2 as amended: the configured key list acts as a pure selection filter —
the loop over the registry equals the unfiltered loop over the registry
restricted to the adapters whose keys the configuration contains, kept in
registration order, and two configurations containing the same keys produce
identical runs whatever their order; adapters with absent keys are skipped
entirely. -/
theorem claim_C2_config_filters_in_registration_order
    (deobDir : String) (cfg : List String) (env : Deobfuscator → String → ProcEnv)
    (st : PipeState) :
    execLoop deobDir cfg env AVAILABLE_DEOBFUSCATORS st
      = execLoop deobDir (AVAILABLE_DEOBFUSCATORS.map Deobfuscator.key) env
          (AVAILABLE_DEOBFUSCATORS.filter (fun d => cfg.contains d.key)) st ∧
    (∀ cfg2 : List String, (∀ s : String, cfg.contains s = cfg2.contains s) →
      execLoop deobDir cfg env AVAILABLE_DEOBFUSCATORS st
        = execLoop deobDir cfg2 env AVAILABLE_DEOBFUSCATORS st) := by
  have hfull : ∀ d : Deobfuscator,
      (AVAILABLE_DEOBFUSCATORS.map Deobfuscator.key).contains d.key = true := by
    intro d
    cases d <;> rfl
  constructor
  · exact execLoop_filter deobDir cfg (AVAILABLE_DEOBFUSCATORS.map Deobfuscator.key)
      env hfull AVAILABLE_DEOBFUSCATORS st
  · intro cfg2 hsame
    rw [execLoop_filter deobDir cfg (AVAILABLE_DEOBFUSCATORS.map Deobfuscator.key)
        env hfull AVAILABLE_DEOBFUSCATORS st,
      execLoop_filter deobDir cfg2 (AVAILABLE_DEOBFUSCATORS.map Deobfuscator.key)
        env hfull AVAILABLE_DEOBFUSCATORS st,
      List.filter_congr (fun d _ => hsame d.key)]

theorem execLoop_success_trace (deobDir : String) (cfg : List String)
    (env : Deobfuscator → String → ProcEnv) :
    ∀ (ds : List Deobfuscator) (st st2 : PipeState),
      execLoop deobDir cfg env ds st = .ok st2 →
      ∃ tr, st2.successful_deobs
          = st.successful_deobs ++ tr.map (fun e => e.1.display_name) ∧
        st2.newest_file_path = lastOutput st.newest_file_path tr ∧
        successChain deobDir env st.newest_file_path tr := by
  intro ds
  induction ds with
  | nil =>
      intro st st2 h
      simp only [execLoop, Except.ok.injEq] at h
      subst h
      exact ⟨[], by simp, rfl, trivial⟩
  | cons d rest ih =>
      intro st st2 h
      by_cases hk : cfg.contains d.key = true
      · simp only [execLoop, hk, if_true] at h
        cases hr : d.deobfuscate deobDir (env d st.newest_file_path) st.newest_file_path with
        | error e =>
            rw [hr] at h
            simp at h
        | ok r =>
            rw [hr] at h
            rcases r with ⟨p, err⟩
            cases p with
            | some q =>
                obtain ⟨tr, hsucc, hnew, hchain⟩ := ih _ st2 h
                refine ⟨(d, st.newest_file_path, q) :: tr, ?_, hnew, rfl, ⟨err, hr⟩, hchain⟩
                rw [hsucc]
                simp
            | none =>
                cases err with
                | some e2 =>
                    obtain ⟨tr, hsucc, hnew, hchain⟩ := ih _ st2 h
                    exact ⟨tr, hsucc, hnew, hchain⟩
                | none =>
                    simp at h
      · simp only [execLoop, if_neg hk] at h
        exact ih st st2 h

/-- C4: for every pipeline state reached after running any prefix of the
adapter registry from the scratch copy, there is a chain of successful
invocations such that the success-name list is exactly the display names of
that chain in execution order (so a failed adapter's name never appears), the
candidate path is the last chain entry's output — the scratch copy when the
chain is empty — and each chain entry consumed the candidate produced by the
previous success (failures never advance the candidate). -/
theorem claim_C4_candidate_tracks_last_success
    (deobDir : String) (cfg : List String) (env : Deobfuscator → String → ProcEnv)
    (src : String) (l₁ l₂ : List Deobfuscator) (st2 : PipeState)
    (hsplit : AVAILABLE_DEOBFUSCATORS = l₁ ++ l₂)
    (hrun : execLoop deobDir cfg env l₁ ⟨src, [], []⟩ = .ok st2) :
    ∃ tr, st2.successful_deobs = tr.map (fun e => e.1.display_name) ∧
      st2.newest_file_path = lastOutput src tr ∧
      successChain deobDir env src tr := by
  obtain ⟨tr, hsucc, hnew, hchain⟩ :=
    execLoop_success_trace deobDir cfg env l₁ ⟨src, [], []⟩ st2 hrun
  exact ⟨tr, by simpa using hsucc, hnew, hchain⟩

/-- Closed instance of the C4 theorem for a full run in which Unscrambler
fails and the other two adapters succeed in turn. -/
theorem claim_C4_candidate_tracks_last_success_witness :
    ∃ tr, (PipeState.mk "/s/a.exeCleaned.exedeob-cex"
        ["ConfuserEx-Static-String-Decryptor", "de4dot-cex"]
        [(.UnscramblerDeobfuscator,
          failMsg .UnscramblerDeobfuscator "OSError occured while deobfuscating.")]).successful_deobs
        = tr.map (fun e => e.1.display_name) ∧
      (PipeState.mk "/s/a.exeCleaned.exedeob-cex"
        ["ConfuserEx-Static-String-Decryptor", "de4dot-cex"]
        [(.UnscramblerDeobfuscator,
          failMsg .UnscramblerDeobfuscator "OSError occured while deobfuscating.")]).newest_file_path
        = lastOutput "/s/a.exe" tr ∧
      successChain "/deob" chainEnvW "/s/a.exe" tr :=
  claim_C4_candidate_tracks_last_success "/deob"
    ["unscrambler", "ConfuserExSSD", "de4dotcex"] chainEnvW "/s/a.exe"
    AVAILABLE_DEOBFUSCATORS []
    (PipeState.mk "/s/a.exeCleaned.exedeob-cex"
      ["ConfuserEx-Static-String-Decryptor", "de4dot-cex"]
      [(.UnscramblerDeobfuscator,
        failMsg .UnscramblerDeobfuscator "OSError occured while deobfuscating.")])
    (List.append_nil _).symm rfl
